import Mathlib

/-!
Verification of the PANfm credential/rate-computation core against its
specification.  Python sources are shallowly embedded: machine integers
become `Int`, Python floats become `Rat` (exact field arithmetic), the
per-key mutable dictionaries (`previous_stats`, `policy_history`) become
explicit state passing of the entry for one key, and file I/O becomes a
pure transformation of the stored device list.
-/

namespace PANfm

/-! ### SecretCodec (encryption.py)

The module `encryption.py` is imported by `device_manager.py`,
`migrate_api_keys.py` and `test_encryption.py` but is not part of the
available sources; it wraps the external `cryptography.fernet` library.
It is therefore modelled from the spec.  A Fernet token is a
urlsafe-base64 string whose decoded bytes begin with the version byte
0x80, i.e. whose text begins with "gAAAAA"; the model represents a
ciphertext by the tagged text itself, collapsing the base64 layer. -/

/-- Modelled from the spec: `encryption.py` is missing from the sources.
`encrypt_string` produces the codec's self-describing wire format; in the
model the Fernet token for `s` is the text of `s` behind the "gAAAAA"
version tag (deterministic stand-in for Fernet encryption). -/
def encrypt_string (s : String) : String :=
  ⟨'g' :: 'A' :: 'A' :: 'A' :: 'A' :: 'A' :: s.data⟩

/-- Modelled from the spec: `encryption.py` is missing from the sources.
`decrypt_string` inverts `encrypt_string` on codec output and, per the
spec's contract, returns malformed / non-codec input unchanged instead of
raising. -/
def decrypt_string (c : String) : String :=
  match c.data with
  | 'g' :: 'A' :: 'A' :: 'A' :: 'A' :: 'A' :: rest => ⟨rest⟩
  | _ => c

/-! ### RateTracker (firewall_api.get_throughput_data, lines 819-933)

The module-level dict `previous_stats` maps a device key to its stored
baseline; the embedding passes the entry for one key explicitly
(`prev : Option DeviceStats` in, updated `DeviceStats` out).  Python
floats are embedded as `Rat`.  The two `time.time()` calls are the
parameters `init_time` (taken when a missing entry is initialised) and
`current_time`. -/

/-- The per-key entry of `previous_stats`: the four cumulative interface
counters of the last sample and its capture time. -/
structure DeviceStats where
  ibytes : Int
  obytes : Int
  ipkts : Int
  opkts : Int
  timestamp : Rat
deriving DecidableEq

/-- The cumulative counters parsed out of the interface-counter XML
(`total_ibytes`, `total_obytes`, `total_ipkts`, `total_opkts`). -/
structure InterfaceCounters where
  ibytes : Int
  obytes : Int
  ipkts : Int
  opkts : Int
deriving DecidableEq

/-- The six rate values as computed inside the branch of
`get_throughput_data`, before the final `round(max(0, _), _)` applied
when the response dict is built. -/
structure RateResult where
  inbound_mbps : Rat
  outbound_mbps : Rat
  total_mbps : Rat
  inbound_pps : Rat
  outbound_pps : Rat
  total_pps : Rat
deriving DecidableEq

/-- The rate fields of the response dict, after `round(max(0, _), _)`. -/
structure ThroughputReport where
  inbound_mbps : Rat
  outbound_mbps : Rat
  total_mbps : Rat
  inbound_pps : Rat
  outbound_pps : Rat
  total_pps : Rat
deriving DecidableEq

/-- Python's `round` (banker's rounding, half to even), on the exact
rational value. -/
def roundHalfEven (x : Rat) : Int :=
  let f := ⌊x⌋
  let r := x - f
  if r < 1/2 then f
  else if 1/2 < r then f + 1
  else if f % 2 = 0 then f else f + 1

/-- Python's `round(x, 2)`. -/
def round2 (x : Rat) : Rat := (roundHalfEven (x * 100) : Rat) / 100

/-- Python's `round(x, 0)`. -/
def round0 (x : Rat) : Rat := (roundHalfEven x : Rat)

/-- The rate-computation branch of `get_throughput_data`: guarded by
`time_delta > 0 and device_stats['ibytes'] > 0`, negative deltas clamped
to zero, bytes/sec divided by 125000 to give Mbps; otherwise all six
rates are zero. -/
def computeRates (device_stats : DeviceStats) (cur : InterfaceCounters)
    (current_time : Rat) : RateResult :=
  let time_delta := current_time - device_stats.timestamp
  if 0 < time_delta ∧ 0 < device_stats.ibytes then
    let ibytes_delta := cur.ibytes - device_stats.ibytes
    let obytes_delta := cur.obytes - device_stats.obytes
    let ipkts_delta := cur.ipkts - device_stats.ipkts
    let opkts_delta := cur.opkts - device_stats.opkts
    let ibytes_delta := if ibytes_delta < 0 then 0 else ibytes_delta
    let obytes_delta := if obytes_delta < 0 then 0 else obytes_delta
    let ipkts_delta := if ipkts_delta < 0 then 0 else ipkts_delta
    let opkts_delta := if opkts_delta < 0 then 0 else opkts_delta
    let inbound_bps := (ibytes_delta : Rat) / time_delta
    let outbound_bps := (obytes_delta : Rat) / time_delta
    let inbound_pps := (ipkts_delta : Rat) / time_delta
    let outbound_pps := (opkts_delta : Rat) / time_delta
    let total_pps := inbound_pps + outbound_pps
    let inbound_mbps := inbound_bps / 125000
    let outbound_mbps := outbound_bps / 125000
    let total_mbps := inbound_mbps + outbound_mbps
    ⟨inbound_mbps, outbound_mbps, total_mbps, inbound_pps, outbound_pps, total_pps⟩
  else
    ⟨0, 0, 0, 0, 0, 0⟩

/-- The `round(max(0, _), 2)` / `round(max(0, _), 0)` treatment applied
to the six rate values when the response dict is built. -/
def reportRates (r : RateResult) : ThroughputReport :=
  ⟨round2 (max 0 r.inbound_mbps), round2 (max 0 r.outbound_mbps),
   round2 (max 0 r.total_mbps), round0 (max 0 r.inbound_pps),
   round0 (max 0 r.outbound_pps), round0 (max 0 r.total_pps)⟩

/-- The rate-tracking core of `get_throughput_data` for one device key:
a missing `previous_stats` entry is initialised to zero counters with
timestamp `init_time`; rates are computed against the stored entry at
`current_time`; the entry is then overwritten (unconditionally) with the
current raw counters and `current_time`.  Returns the reported rates and
the new stored entry. -/
def get_throughput_data (prev : Option DeviceStats) (cur : InterfaceCounters)
    (init_time current_time : Rat) : ThroughputReport × DeviceStats :=
  let device_stats := prev.getD ⟨0, 0, 0, 0, init_time⟩
  let rates := computeRates device_stats cur current_time
  (reportRates rates,
   ⟨cur.ibytes, cur.obytes, cur.ipkts, cur.opkts, current_time⟩)

/-- The all-zero rate report. -/
def zeroReport : ThroughputReport := ⟨0, 0, 0, 0, 0, 0⟩

/-! ### TrendTracker (firewall_api.get_policy_hit_counts, lines 1197-1231)

The module-level dict `policy_history` maps a rule name to its bounded
hit-count history; the embedding passes one rule's history explicitly.
The code labels trends with the strings for up, down and stable, and
with Python `None` before two observations exist; the float thresholds
1.1 and 0.9 are embedded as the rationals 11/10 and 9/10. -/

/-- Trend classification: the code's up / down / stable strings plus
`unknown` for Python `None`. -/
inductive Trend where
  | up
  | down
  | stable
  | unknown
deriving DecidableEq

/-- Appending the current count to a rule's `policy_history` entry and
keeping only the last 5 readings (`history[-5:]`). -/
def observe_hit_count (history : List Int) (current_count : Int) : List Int :=
  let h := history ++ [current_count]
  if 5 < h.length then h.drop (h.length - 5) else h

/-- The trend computed from the updated history `recent_counts`: with at
least 2 readings, compare the most recent to the average of the previous
readings with a 10 percent threshold either way; otherwise `None`. -/
def trendOf (recent_counts : List Int) : Trend :=
  if 2 ≤ recent_counts.length then
    if 1 < recent_counts.length then
      let prior := recent_counts.dropLast
      let previous_avg : Rat := ((prior.sum : Int) : Rat) / (prior.length : Rat)
      let current : Rat := ((recent_counts.getLast?.getD 0 : Int) : Rat)
      if previous_avg * (11 / 10) < current then Trend.up
      else if current < previous_avg * (9 / 10) then Trend.down
      else Trend.stable
    else Trend.stable
  else Trend.unknown

/-- One policy's step of the trend block of `get_policy_hit_counts`:
update the bounded history for the rule, then classify. -/
def policy_trend_step (history : List Int) (current_count : Int) : List Int × Trend :=
  let h := observe_hit_count history current_count
  (h, trendOf h)

/-! ### DeviceManager (device_manager.py) and routes.update_device (routes.py)

The devices file's `devices` array is embedded as a `List Device`; the
whole-file read/write is a pure transformation of that list, with the
file write modelled as always succeeding (the `True` returned by
`save_devices`).  A partial-update dict is embedded as a record of
optional fields (`none` = key absent from the dict). -/

/-- A device record as stored in devices.json (the fields created by
`DeviceManager.add_device`). -/
structure Device where
  id : String
  name : String
  ip : String
  api_key : String
  enabled : Bool
  group : String
  description : String
  added_date : String
  last_seen : Option String
  monitored_interface : String
  wan_interface : String
deriving DecidableEq

/-- The `updates` dict passed to `DeviceManager.update_device`: each
known device field either absent (`none`) or supplied. -/
structure DeviceUpdate where
  id : Option String := none
  name : Option String := none
  ip : Option String := none
  api_key : Option String := none
  enabled : Option Bool := none
  group : Option String := none
  description : Option String := none
  added_date : Option String := none
  last_seen : Option (Option String) := none
  monitored_interface : Option String := none
  wan_interface : Option String := none
deriving DecidableEq

/-- The per-device decryption step of `load_devices`: when requested and
the `api_key` field is non-empty it is decrypted (with `decrypt_string`,
which returns non-codec input unchanged). -/
def load_device (decrypt_api_keys : Bool) (d : Device) : Device :=
  if decrypt_api_keys = true ∧ d.api_key ≠ "" then
    { d with api_key := decrypt_string d.api_key }
  else d

/-- `DeviceManager.load_devices`: read the stored array, optionally
decrypting each `api_key`. -/
def load_devices (stored : List Device) (decrypt_api_keys : Bool) : List Device :=
  stored.map (load_device decrypt_api_keys)

/-- The per-device encryption step of `save_devices`: a non-empty
`api_key` is encrypted before the write. -/
def save_device (d : Device) : Device :=
  if d.api_key ≠ "" then { d with api_key := encrypt_string d.api_key } else d

/-- `DeviceManager.save_devices`: encrypt every non-empty `api_key` and
write the array back; returns `True` (the file write is modelled as
succeeding) together with the new stored array. -/
def save_devices (devices : List Device) : Bool × List Device :=
  (true, devices.map save_device)

/-- Python's `devices[i].update(updates)` restricted to the known device
fields: a supplied field overwrites, an absent field is kept. -/
def dictUpdate (d : Device) (u : DeviceUpdate) : Device :=
  { id := u.id.getD d.id
    name := u.name.getD d.name
    ip := u.ip.getD d.ip
    api_key := u.api_key.getD d.api_key
    enabled := u.enabled.getD d.enabled
    group := u.group.getD d.group
    description := u.description.getD d.description
    added_date := u.added_date.getD d.added_date
    last_seen := u.last_seen.getD d.last_seen
    monitored_interface := u.monitored_interface.getD d.monitored_interface
    wan_interface := u.wan_interface.getD d.wan_interface }

/-- The loop of `DeviceManager.update_device`: find the first device
with the given id, merge the updates into it, and return the new list
together with the updated record; `none` when no device matches. -/
def update_first (devices : List Device) (device_id : String) (updates : DeviceUpdate) :
    Option (List Device × Device) :=
  match devices with
  | [] => none
  | d :: rest =>
    if d.id = device_id then some (dictUpdate d updates :: rest, dictUpdate d updates)
    else
      match update_first rest device_id updates with
      | none => none
      | some (rest2, upd) => some (d :: rest2, upd)

/-- `DeviceManager.update_device`: load with decrypted keys, merge the
updates into the first matching device, save (re-encrypting), and
return the updated record; on no match return `None` without saving. -/
def update_device (stored : List Device) (device_id : String) (updates : DeviceUpdate) :
    Option Device × List Device :=
  match update_first (load_devices stored true) device_id updates with
  | none => (none, stored)
  | some (devices2, upd) => (some upd, (save_devices devices2).2)

/-- The api-key guard of the PUT /api/devices route: an empty (or
missing) `api_key` in the request body is deleted from the updates so
the existing key is preserved. -/
def route_filter_updates (data : DeviceUpdate) : DeviceUpdate :=
  if data.api_key = some "" then { data with api_key := none } else data

/-- `routes.update_device`: strip an empty `api_key` from the update
dict, then delegate to `DeviceManager.update_device`. -/
def routes_update_device (stored : List Device) (device_id : String) (data : DeviceUpdate) :
    Option Device × List Device :=
  update_device stored device_id (route_filter_updates data)

/-- `DeviceManager.delete_device`: load with decrypted keys, drop every
device with the given id, and return the result of saving the remaining
list (together with the new stored array). -/
def delete_device (stored : List Device) (device_id : String) : Bool × List Device :=
  save_devices ((load_devices stored true).filter (fun d => d.id != device_id))

/-! ### API-key migration (migrate_api_keys.py)

Python's `base64.b64decode(...).decode('utf-8')` on a legacy key is an
external stdlib operation; the migration is parametrised over it as a
partial function (`none` = the decode raised and the key is used
as-is). -/

/-- `is_fernet_encrypted` from migrate_api_keys.py: structural check
whether a value is current-format ciphertext.  The source base64-decodes
the value and tests for the Fernet version byte 0x80 (whose base64 text
form is the "gAAAAA" head of a token); in the model, where a ciphertext
is the tagged token text itself, this is the tag test, false for the
empty string and for values without the tag. -/
def is_fernet_encrypted (value : String) : Bool :=
  match value.data with
  | 'g' :: 'A' :: 'A' :: 'A' :: 'A' :: 'A' :: _ => true
  | _ => false

/-- The per-device body of the `migrate_api_keys` loop: empty keys and
keys already recognised as current-format ciphertext are skipped;
otherwise the key is decrypted (falling back to a legacy base64 decode
when decryption returned the value unchanged) and re-encrypted. -/
def migrate_device (b64decode : String → Option String) (device : Device) : Device :=
  if device.api_key = "" then device
  else if is_fernet_encrypted device.api_key then device
  else
    let decrypted_key := decrypt_string device.api_key
    let decrypted_key :=
      if decrypted_key = device.api_key then
        match b64decode device.api_key with
        | some s => s
        | none => decrypted_key
      else decrypted_key
    { device with api_key := encrypt_string decrypted_key }

/-- `migrate_api_keys`: the migration pass over the stored device set. -/
def migrate_api_keys (b64decode : String → Option String) (devices : List Device) :
    List Device :=
  devices.map (migrate_device b64decode)

/-! ### Helper lemmas -/

theorem codec_roundtrip (s : String) : decrypt_string (encrypt_string s) = s := by
  cases s with
  | mk data => rfl

theorem encrypt_string_ne_empty (s : String) : encrypt_string s ≠ "" := by
  intro h
  have h2 : (encrypt_string s).data = ("" : String).data := congrArg String.data h
  simp [encrypt_string] at h2

theorem is_fernet_encrypted_encrypt (s : String) :
    is_fernet_encrypted (encrypt_string s) = true := rfl

theorem roundHalfEven_of_floor_lt_half (x : Rat) (n : Int) (h1 : (n : Rat) ≤ x)
    (h2 : x < n + 1) (h3 : x - n < 1 / 2) : roundHalfEven x = n := by
  have hf : ⌊x⌋ = n := Int.floor_eq_iff.mpr ⟨h1, h2⟩
  simp only [roundHalfEven, hf, if_pos h3]

theorem roundHalfEven_zero : roundHalfEven 0 = 0 := by
  have h := roundHalfEven_of_floor_lt_half 0 0 (by norm_num) (by norm_num) (by norm_num)
  simpa using h

theorem round2_zero : round2 0 = 0 := by
  rw [round2, zero_mul, roundHalfEven_zero]
  norm_num

theorem round0_zero : round0 0 = 0 := by
  rw [round0, roundHalfEven_zero]
  norm_num

theorem reportRates_zeroRates : reportRates ⟨0, 0, 0, 0, 0, 0⟩ = zeroReport := by
  simp [reportRates, zeroReport, round2_zero, round0_zero]

theorem computeRates_of_neg (stats : DeviceStats) (cur : InterfaceCounters) (t : Rat)
    (h : ¬(0 < t - stats.timestamp ∧ 0 < stats.ibytes)) :
    computeRates stats cur t = ⟨0, 0, 0, 0, 0, 0⟩ := by
  simp only [computeRates, if_neg h]

theorem if_neg_lt_eq_max (d : Int) : (if d < 0 then 0 else d) = max d 0 := by
  rcases lt_or_ge d 0 with h | h
  · rw [if_pos h, max_eq_right h.le]
  · rw [if_neg (not_lt.mpr h), max_eq_left h]

theorem computeRates_of_pos (stats : DeviceStats) (cur : InterfaceCounters) (t : Rat)
    (h : 0 < t - stats.timestamp ∧ 0 < stats.ibytes) :
    computeRates stats cur t =
      ⟨((max (cur.ibytes - stats.ibytes) 0 : Int) : Rat) / (t - stats.timestamp) / 125000,
       ((max (cur.obytes - stats.obytes) 0 : Int) : Rat) / (t - stats.timestamp) / 125000,
       ((max (cur.ibytes - stats.ibytes) 0 : Int) : Rat) / (t - stats.timestamp) / 125000
         + ((max (cur.obytes - stats.obytes) 0 : Int) : Rat) / (t - stats.timestamp) / 125000,
       ((max (cur.ipkts - stats.ipkts) 0 : Int) : Rat) / (t - stats.timestamp),
       ((max (cur.opkts - stats.opkts) 0 : Int) : Rat) / (t - stats.timestamp),
       ((max (cur.ipkts - stats.ipkts) 0 : Int) : Rat) / (t - stats.timestamp)
         + ((max (cur.opkts - stats.opkts) 0 : Int) : Rat) / (t - stats.timestamp)⟩ := by
  simp only [computeRates, if_pos h, if_neg_lt_eq_max]

theorem get_throughput_data_stats (prev : Option DeviceStats) (cur : InterfaceCounters)
    (t0 t1 : Rat) :
    (get_throughput_data prev cur t0 t1).2 =
      ⟨cur.ibytes, cur.obytes, cur.ipkts, cur.opkts, t1⟩ := rfl

/-! ### Theorems for the rate-tracker claims -/

/-- C5: for a device key with no previously stored sample, the first rate
computation returns all-zero rates and stores the current raw counters
and the current timestamp as the baseline. -/
theorem first_sample_zero_rates (cur : InterfaceCounters) (t0 t1 : Rat) :
    get_throughput_data none cur t0 t1 =
      (zeroReport, ⟨cur.ibytes, cur.obytes, cur.ipkts, cur.opkts, t1⟩) := by
  simp only [get_throughput_data, Option.getD]
  rw [computeRates_of_neg ⟨0, 0, 0, 0, t0⟩ cur t1 (by simp), reportRates_zeroRates]

/-- C3 (amended): when the elapsed time between the current sample and
the stored baseline is non-positive, the computation returns an all-zero
rate result, but it still overwrites the stored baseline with the
current raw counters and the current timestamp (the update is
unconditional in the code). -/
theorem nonpositive_elapsed_zero_rates (stats : DeviceStats) (cur : InterfaceCounters)
    (t0 t1 : Rat) (h : t1 - stats.timestamp ≤ 0) :
    get_throughput_data (some stats) cur t0 t1 =
      (zeroReport, ⟨cur.ibytes, cur.obytes, cur.ipkts, cur.opkts, t1⟩) := by
  simp only [get_throughput_data, Option.getD]
  rw [computeRates_of_neg _ _ _ (by rw [not_and]; intro hlt; exact absurd hlt (not_lt.mpr h)),
    reportRates_zeroRates]

theorem nonpositive_elapsed_zero_rates_witness :
    (10 : Rat) - 10 ≤ 0 ∧
    get_throughput_data (some ⟨5000, 0, 0, 0, 10⟩) ⟨6000, 0, 0, 0⟩ 0 10 =
      (zeroReport, ⟨6000, 0, 0, 0, 10⟩) :=
  ⟨by norm_num, nonpositive_elapsed_zero_rates ⟨5000, 0, 0, 0, 10⟩ ⟨6000, 0, 0, 0⟩ 0 10 (by norm_num)⟩

/-- C3 counterexample: with a stored baseline (ibytes=5000, t=10), a
sample (ibytes=6000) taken at the same time t=10 has elapsed ≤ 0, yet
the stored baseline is mutated (its counters become the current ones),
refuting the claim that the stored state is left unchanged. -/
theorem nonpositive_elapsed_mutates_counterexample :
    (10 : Rat) - 10 ≤ 0 ∧
    (get_throughput_data (some ⟨5000, 0, 0, 0, 10⟩) ⟨6000, 0, 0, 0⟩ 0 10).2 ≠
      (⟨5000, 0, 0, 0, 10⟩ : DeviceStats) := by
  refine ⟨by norm_num, ?_⟩
  rw [get_throughput_data_stats]
  intro hEq
  have h2 : (6000 : Int) = 5000 := congrArg DeviceStats.ibytes hEq
  norm_num at h2

/-- C10: whenever the stored baseline has an inbound-byte counter equal
to 0, the computation returns all-zero rates (the rate branch is guarded
by `device_stats['ibytes'] > 0`) even if elapsed time is positive and
other counters increased, and then overwrites the baseline with the
current counters and timestamp. -/
theorem zero_inbound_baseline_zero_rates (stats : DeviceStats) (cur : InterfaceCounters)
    (t0 t1 : Rat) (h : stats.ibytes = 0) :
    get_throughput_data (some stats) cur t0 t1 =
      (zeroReport, ⟨cur.ibytes, cur.obytes, cur.ipkts, cur.opkts, t1⟩) := by
  simp only [get_throughput_data, Option.getD]
  rw [computeRates_of_neg _ _ _ (by rw [h]; simp), reportRates_zeroRates]

theorem zero_inbound_baseline_zero_rates_witness :
    ((⟨0, 500, 3, 4, 0⟩ : DeviceStats)).ibytes = 0 ∧
    (0 : Rat) < 5 - 0 ∧ (500 : Int) < 125500 ∧
    get_throughput_data (some ⟨0, 500, 3, 4, 0⟩) ⟨0, 125500, 30, 40⟩ 0 5 =
      (zeroReport, ⟨0, 125500, 30, 40, 5⟩) :=
  ⟨rfl, by norm_num, by norm_num,
    zero_inbound_baseline_zero_rates ⟨0, 500, 3, 4, 0⟩ ⟨0, 125500, 30, 40⟩ 0 5 rfl⟩

/-- C2: a counter delta that is negative relative to the stored baseline
is clamped to zero, so the reported rate for that counter is 0; and the
stored baseline is then set to the current raw counters (with the
current timestamp), not kept at the pre-reset values. -/
theorem negative_delta_clamped (stats : DeviceStats) (cur : InterfaceCounters) (t0 t1 : Rat) :
    (cur.ibytes < stats.ibytes →
      (get_throughput_data (some stats) cur t0 t1).1.inbound_mbps = 0) ∧
    (cur.obytes < stats.obytes →
      (get_throughput_data (some stats) cur t0 t1).1.outbound_mbps = 0) ∧
    (cur.ipkts < stats.ipkts →
      (get_throughput_data (some stats) cur t0 t1).1.inbound_pps = 0) ∧
    (cur.opkts < stats.opkts →
      (get_throughput_data (some stats) cur t0 t1).1.outbound_pps = 0) ∧
    (get_throughput_data (some stats) cur t0 t1).2 =
      ⟨cur.ibytes, cur.obytes, cur.ipkts, cur.opkts, t1⟩ := by
  have hrep : (get_throughput_data (some stats) cur t0 t1).1 =
      reportRates (computeRates stats cur t1) := rfl
  by_cases hc : 0 < t1 - stats.timestamp ∧ 0 < stats.ibytes
  · refine ⟨?_, ?_, ?_, ?_, rfl⟩ <;> intro hlt
    · have h0 : max (cur.ibytes - stats.ibytes) 0 = (0 : Int) :=
        max_eq_right (sub_nonpos.mpr hlt.le)
      rw [hrep, computeRates_of_pos stats cur t1 hc]
      show round2 (max 0 (((max (cur.ibytes - stats.ibytes) 0 : Int) : Rat) /
        (t1 - stats.timestamp) / 125000)) = 0
      rw [h0]
      simp [round2_zero]
    · have h0 : max (cur.obytes - stats.obytes) 0 = (0 : Int) :=
        max_eq_right (sub_nonpos.mpr hlt.le)
      rw [hrep, computeRates_of_pos stats cur t1 hc]
      show round2 (max 0 (((max (cur.obytes - stats.obytes) 0 : Int) : Rat) /
        (t1 - stats.timestamp) / 125000)) = 0
      rw [h0]
      simp [round2_zero]
    · have h0 : max (cur.ipkts - stats.ipkts) 0 = (0 : Int) :=
        max_eq_right (sub_nonpos.mpr hlt.le)
      rw [hrep, computeRates_of_pos stats cur t1 hc]
      show round0 (max 0 (((max (cur.ipkts - stats.ipkts) 0 : Int) : Rat) /
        (t1 - stats.timestamp))) = 0
      rw [h0]
      simp [round0_zero]
    · have h0 : max (cur.opkts - stats.opkts) 0 = (0 : Int) :=
        max_eq_right (sub_nonpos.mpr hlt.le)
      rw [hrep, computeRates_of_pos stats cur t1 hc]
      show round0 (max 0 (((max (cur.opkts - stats.opkts) 0 : Int) : Rat) /
        (t1 - stats.timestamp))) = 0
      rw [h0]
      simp [round0_zero]
  · refine ⟨?_, ?_, ?_, ?_, rfl⟩ <;> intro _ <;>
      rw [hrep, computeRates_of_neg stats cur t1 hc, reportRates_zeroRates] <;> rfl

theorem negative_delta_clamped_witness :
    (100 : Int) < 5000 ∧
    (get_throughput_data (some ⟨5000, 0, 0, 0, 0⟩) ⟨100, 0, 0, 0⟩ 0 1).1.inbound_mbps = 0 ∧
    (get_throughput_data (some ⟨5000, 0, 0, 0, 0⟩) ⟨100, 0, 0, 0⟩ 0 1).2.ibytes = 100 := by
  have h := negative_delta_clamped ⟨5000, 0, 0, 0, 0⟩ ⟨100, 0, 0, 0⟩ 0 1
  exact ⟨by norm_num, h.1 (by norm_num), by rw [h.2.2.2.2]⟩

/-- C4 (amended): when a previous baseline exists, elapsed time is
positive, and the baseline inbound-byte counter is positive (the extra
guard of the code's rate branch), the reported inbound and outbound
throughput each equal the clamped byte delta divided by elapsed seconds
divided by 125000 (rounded to two decimals for the response dict), and
the reported total is the rounded sum of the two unrounded values; the
spec example (baseline ibytes=1000 at t=0, sample ibytes=1125000 at
t=1) yields 8.99 ≈ 9.0. -/
theorem positive_elapsed_rate_formula (stats : DeviceStats) (cur : InterfaceCounters)
    (t0 t1 : Rat) (h1 : 0 < t1 - stats.timestamp) (h2 : 0 < stats.ibytes) :
    (get_throughput_data (some stats) cur t0 t1).1.inbound_mbps =
      round2 (((max (cur.ibytes - stats.ibytes) 0 : Int) : Rat) / (t1 - stats.timestamp) / 125000) ∧
    (get_throughput_data (some stats) cur t0 t1).1.outbound_mbps =
      round2 (((max (cur.obytes - stats.obytes) 0 : Int) : Rat) / (t1 - stats.timestamp) / 125000) ∧
    (get_throughput_data (some stats) cur t0 t1).1.total_mbps =
      round2 (((max (cur.ibytes - stats.ibytes) 0 : Int) : Rat) / (t1 - stats.timestamp) / 125000
        + ((max (cur.obytes - stats.obytes) 0 : Int) : Rat) / (t1 - stats.timestamp) / 125000) := by
  have hrep : (get_throughput_data (some stats) cur t0 t1).1 =
      reportRates (computeRates stats cur t1) := rfl
  have hin : (0 : Rat) ≤
      ((max (cur.ibytes - stats.ibytes) 0 : Int) : Rat) / (t1 - stats.timestamp) / 125000 :=
    div_nonneg (div_nonneg (by exact_mod_cast le_max_right _ 0) h1.le) (by norm_num)
  have hout : (0 : Rat) ≤
      ((max (cur.obytes - stats.obytes) 0 : Int) : Rat) / (t1 - stats.timestamp) / 125000 :=
    div_nonneg (div_nonneg (by exact_mod_cast le_max_right _ 0) h1.le) (by norm_num)
  rw [hrep, computeRates_of_pos stats cur t1 ⟨h1, h2⟩]
  refine ⟨?_, ?_, ?_⟩ <;> simp only [reportRates]
  · rw [max_eq_right hin]
  · rw [max_eq_right hout]
  · rw [max_eq_right (add_nonneg hin hout)]

theorem positive_elapsed_rate_formula_witness :
    (0 : Rat) < 1 - 0 ∧ (0 : Int) < 1000 ∧
    (get_throughput_data (some ⟨1000, 0, 0, 0, 0⟩) ⟨1125000, 0, 0, 0⟩ 0 1).1.inbound_mbps =
      899 / 100 := by
  refine ⟨by norm_num, by norm_num, ?_⟩
  have h := (positive_elapsed_rate_formula ⟨1000, 0, 0, 0, 0⟩ ⟨1125000, 0, 0, 0⟩ 0 1
    (by norm_num) (by norm_num)).1
  rw [h]
  have harg : ((max ((1125000 : Int) - 1000) 0 : Int) : Rat) / ((1 : Rat) - 0) / 125000 * 100 =
      4496 / 5 := by norm_num
  rw [round2, harg, roundHalfEven_of_floor_lt_half (4496 / 5) 899 (by norm_num) (by norm_num)
    (by norm_num)]
  norm_num

/-- C4 counterexample: a previous baseline exists (ibytes=0, obytes=500
at t=0) and elapsed time is positive, the outbound counter grew by
125000 bytes over 1s, yet the reported outbound throughput is 0 rather
than delta/elapsed/125000 = 1, because the rate branch additionally
requires the baseline inbound-byte counter to be positive. -/
theorem rate_formula_counterexample :
    (0 : Rat) < 1 - 0 ∧
    (get_throughput_data (some ⟨0, 500, 0, 0, 0⟩) ⟨0, 125500, 0, 0⟩ 0 1).1.outbound_mbps = 0 ∧
    ((125500 : Rat) - 500) / ((1 : Rat) - 0) / 125000 = 1 ∧ (0 : Rat) ≠ 1 := by
  refine ⟨by norm_num, ?_, by norm_num, by norm_num⟩
  have hrep : (get_throughput_data (some ⟨0, 500, 0, 0, 0⟩) ⟨0, 125500, 0, 0⟩ 0 1).1 =
      reportRates (computeRates ⟨0, 500, 0, 0, 0⟩ ⟨0, 125500, 0, 0⟩ 1) := rfl
  rw [hrep, computeRates_of_neg _ _ _ (by simp), reportRates_zeroRates]
  rfl

/-- C1: decoding the encoding of any string (empty and unicode included)
with the secret codec returns the original string. -/
theorem decrypt_encrypt_roundtrip (s : String) :
    decrypt_string (encrypt_string s) = s := by
  cases s with
  | mk data => rfl

/-! ### Theorems for the trend-tracker claim -/

theorem observe_hit_count_drop (h : List Int) (c : Int) :
    observe_hit_count h c = (h ++ [c]).drop ((h ++ [c]).length - 5) := by
  rw [observe_hit_count]
  by_cases hl : 5 < (h ++ [c]).length
  · simp only [if_pos hl]
  · rw [if_neg hl, Nat.sub_eq_zero_of_le (not_lt.mp hl), List.drop_zero]

/-- C6: per metric name the trend tracker keeps at most the 5 most
recent observations (the updated history is the 5-element suffix of the
old history plus the new count, oldest dropped first); fewer than 2
observations classify as unknown; otherwise the latest observation is
compared against the arithmetic mean of all prior observations with
thresholds 1.10 and 0.90; and the spec examples [10], [10, 20],
[100, 101], [100, 85] classify as unknown, rising (up), stable and
falling (down) respectively. -/
theorem policy_trend_spec :
    (∀ (h : List Int) (c : Int),
      (policy_trend_step h c).1 = (h ++ [c]).drop ((h ++ [c]).length - 5) ∧
      (policy_trend_step h c).1.length ≤ 5) ∧
    (∀ h : List Int, h.length < 2 → trendOf h = Trend.unknown) ∧
    (∀ h : List Int, 2 ≤ h.length →
      trendOf h =
        if ((h.dropLast.sum : Int) : Rat) / (h.dropLast.length : Rat) * (11 / 10) <
            ((h.getLast?.getD 0 : Int) : Rat) then Trend.up
        else if ((h.getLast?.getD 0 : Int) : Rat) <
            ((h.dropLast.sum : Int) : Rat) / (h.dropLast.length : Rat) * (9 / 10) then Trend.down
        else Trend.stable) ∧
    (policy_trend_step [] 10).2 = Trend.unknown ∧
    (policy_trend_step [10] 20).2 = Trend.up ∧
    (policy_trend_step [100] 101).2 = Trend.stable ∧
    (policy_trend_step [100] 85).2 = Trend.down := by
  refine ⟨?_, ?_, ?_, ?_, ?_, ?_, ?_⟩
  · intro h c
    constructor
    · show observe_hit_count h c = _
      exact observe_hit_count_drop h c
    · show (observe_hit_count h c).length ≤ 5
      rw [observe_hit_count_drop h c, List.length_drop]
      omega
  · intro h hl
    rw [trendOf, if_neg (by omega)]
  · intro h hl
    rw [trendOf, if_pos hl, if_pos (by omega)]
  · show trendOf (observe_hit_count [] 10) = Trend.unknown
    norm_num [observe_hit_count, trendOf]
  · show trendOf (observe_hit_count [10] 20) = Trend.up
    norm_num [observe_hit_count, trendOf]
  · show trendOf (observe_hit_count [100] 101) = Trend.stable
    norm_num [observe_hit_count, trendOf]
  · show trendOf (observe_hit_count [100] 85) = Trend.down
    norm_num [observe_hit_count, trendOf]

theorem policy_trend_spec_witness :
    trendOf [10] = Trend.unknown ∧ (policy_trend_step [10] 20).2 = Trend.up :=
  ⟨policy_trend_spec.2.1 [10] (by simp), policy_trend_spec.2.2.2.2.1⟩

/-! ### Theorems for the credential-store claims -/

theorem migrate_device_idem (b64 : String → Option String) (d : Device) :
    migrate_device b64 (migrate_device b64 d) = migrate_device b64 d := by
  by_cases h1 : d.api_key = ""
  · have hd : migrate_device b64 d = d := by rw [migrate_device, if_pos h1]
    rw [hd, hd]
  · by_cases h2 : is_fernet_encrypted d.api_key = true
    · have hd : migrate_device b64 d = d := by
        rw [migrate_device, if_neg h1, if_pos h2]
      rw [hd, hd]
    · have hd : ∃ s, migrate_device b64 d = { d with api_key := encrypt_string s } := by
        rw [migrate_device, if_neg h1, if_neg h2]
        exact ⟨_, rfl⟩
      obtain ⟨s, hs⟩ := hd
      rw [hs, migrate_device, if_neg (fun h => encrypt_string_ne_empty s h),
        if_pos (is_fernet_encrypted_encrypt s)]

/-- C8: the API-key migration is idempotent: running it a second time
over the device set produced by a first run changes nothing, because
every key the first run touched is now current-format ciphertext and is
skipped, whatever the legacy base64 decoder did. -/
theorem migrate_api_keys_idempotent (b64 : String → Option String) (devices : List Device) :
    migrate_api_keys b64 (migrate_api_keys b64 devices) = migrate_api_keys b64 devices := by
  simp only [migrate_api_keys, List.map_map]
  exact List.map_congr_left fun d _ => migrate_device_idem b64 d

theorem load_device_id (b : Bool) (d : Device) : (load_device b d).id = d.id := by
  rw [load_device]
  split <;> rfl

theorem save_load_device (d : Device)
    (h : d.api_key = "" ∨ ∃ p, p ≠ "" ∧ d.api_key = encrypt_string p) :
    save_device (load_device true d) = d := by
  rcases h with h | ⟨p, hp, hkey⟩
  · rw [load_device, if_neg (by simp [h]), save_device, if_neg (by simp [h])]
  · rw [load_device,
      if_pos ⟨rfl, by rw [hkey]; exact encrypt_string_ne_empty p⟩,
      hkey, codec_roundtrip, save_device, if_pos (show p ≠ "" from hp)]
    show { d with api_key := encrypt_string p } = d
    rw [← hkey]

/-- C9 (amended): deleting an id not present in the store does not
raise, leaves the stored device set unchanged (given the invariant that
stored API keys are either empty or codec ciphertexts of non-empty
plaintexts), and returns True: the boolean is the result of re-saving
the unchanged list, not an indicator that something was removed. -/
theorem delete_device_unknown_id (stored : List Device) (device_id : String)
    (hid : ∀ d ∈ stored, d.id ≠ device_id)
    (hkeys : ∀ d ∈ stored, d.api_key = "" ∨ ∃ p, p ≠ "" ∧ d.api_key = encrypt_string p) :
    delete_device stored device_id = (true, stored) := by
  rw [delete_device]
  have hfilt : (load_devices stored true).filter (fun d => d.id != device_id) =
      load_devices stored true := by
    rw [List.filter_eq_self]
    intro a ha
    obtain ⟨d, hd, rfl⟩ := List.mem_map.mp ha
    simp only [bne_iff_ne, ne_eq, load_device_id]
    exact hid d hd
  rw [hfilt, save_devices, load_devices, List.map_map]
  have hmap : stored.map (save_device ∘ load_device true) = stored := by
    have h2 : ∀ d ∈ stored, (save_device ∘ load_device true) d = id d := fun d hd => by
      simpa using save_load_device d (hkeys d hd)
    rw [List.map_congr_left h2, List.map_id]
  rw [hmap]

/-- A concrete stored device used by the delete-claim theorems. -/
def sampleStoredDevice : Device :=
  ⟨"id1", "fw", "10.0.0.1", encrypt_string "k", true, "HQ", "", "2024-01-01", none,
   "ethernet1/12", ""⟩

/-- C9 counterexample: deleting the unknown id "missing" from a store
holding only a device with id "id1" returns True — the boolean reports
the save outcome, not whether a device was removed — refuting the claim
that delete_device of an unknown id returns false. -/
theorem delete_unknown_returns_true_counterexample :
    sampleStoredDevice.id ≠ "missing" ∧
    (delete_device [sampleStoredDevice] "missing").1 = true ∧ true ≠ false := by
  refine ⟨by decide, rfl, by simp⟩

theorem delete_device_unknown_id_witness :
    delete_device [sampleStoredDevice] "missing" = (true, [sampleStoredDevice]) := by
  apply delete_device_unknown_id
  · intro d hd
    rw [List.mem_singleton] at hd
    subst hd
    decide
  · intro d hd
    rw [List.mem_singleton] at hd
    subst hd
    exact Or.inr ⟨"k", by decide, rfl⟩

theorem load_device_of_encrypted (d : Device) (p : String)
    (hkey : d.api_key = encrypt_string p) :
    load_device true d = { d with api_key := p } := by
  rw [load_device, if_pos ⟨rfl, by rw [hkey]; exact encrypt_string_ne_empty p⟩, hkey,
    codec_roundtrip]

theorem update_first_head (pre post : List Device) (d : Device) (u : DeviceUpdate)
    (device_id : String) (hpre : ∀ e ∈ pre, e.id ≠ device_id) (hd : d.id = device_id) :
    update_first (pre ++ d :: post) device_id u =
      some (pre ++ dictUpdate d u :: post, dictUpdate d u) := by
  induction pre with
  | nil =>
    simp only [List.nil_append, update_first, if_pos hd]
  | cons e rest ih =>
    have he : e.id ≠ device_id := hpre e (List.mem_cons_self e rest)
    have ih2 := ih fun x hx => hpre x (List.mem_cons_of_mem e hx)
    simp only [List.cons_append, update_first, if_neg he, List.append_eq, ih2]

/-- C7: `update_device` via the PUT route has merge semantics.  For a
store `pre ++ d :: post` where `d` is the first device carrying the
target id and holds a codec ciphertext of the non-empty key `p`, the
route returns the merged record and re-saves the store with each
supplied field overwriting and each omitted field preserved; an update
whose api_key is empty (or absent) leaves the stored encrypted key
exactly `d.api_key`, while an update with a non-empty key k stores its
encryption, which decrypts back to exactly k. -/
theorem update_device_merge (pre post : List Device) (d : Device) (u : DeviceUpdate)
    (p : String) (hpre : ∀ e ∈ pre, e.id ≠ d.id) (hp : p ≠ "")
    (hkey : d.api_key = encrypt_string p) :
    (routes_update_device (pre ++ d :: post) d.id u =
      (some { id := u.id.getD d.id,
              name := u.name.getD d.name,
              ip := u.ip.getD d.ip,
              api_key := (route_filter_updates u).api_key.getD p,
              enabled := u.enabled.getD d.enabled,
              group := u.group.getD d.group,
              description := u.description.getD d.description,
              added_date := u.added_date.getD d.added_date,
              last_seen := u.last_seen.getD d.last_seen,
              monitored_interface := u.monitored_interface.getD d.monitored_interface,
              wan_interface := u.wan_interface.getD d.wan_interface },
       (load_devices pre true).map save_device ++
         { id := u.id.getD d.id,
           name := u.name.getD d.name,
           ip := u.ip.getD d.ip,
           api_key := encrypt_string ((route_filter_updates u).api_key.getD p),
           enabled := u.enabled.getD d.enabled,
           group := u.group.getD d.group,
           description := u.description.getD d.description,
           added_date := u.added_date.getD d.added_date,
           last_seen := u.last_seen.getD d.last_seen,
           monitored_interface := u.monitored_interface.getD d.monitored_interface,
           wan_interface := u.wan_interface.getD d.wan_interface } ::
           (load_devices post true).map save_device)) ∧
    ((u.api_key = none ∨ u.api_key = some "") →
      encrypt_string ((route_filter_updates u).api_key.getD p) = d.api_key) ∧
    (∀ k, u.api_key = some k → k ≠ "" →
      encrypt_string ((route_filter_updates u).api_key.getD p) = encrypt_string k ∧
      decrypt_string (encrypt_string ((route_filter_updates u).api_key.getD p)) = k) := by
  have hne : (route_filter_updates u).api_key.getD p ≠ "" := by
    rw [route_filter_updates]
    by_cases hak : u.api_key = some ""
    · rw [if_pos hak]
      exact hp
    · rw [if_neg hak]
      cases hu : u.api_key with
      | none => simpa [hu] using hp
      | some k =>
        simp only [hu, Option.getD_some]
        intro h
        exact hak (by rw [hu, h])
  refine ⟨?_, ?_, ?_⟩
  · have hA : dictUpdate { d with api_key := p } (route_filter_updates u) =
        { id := u.id.getD d.id,
          name := u.name.getD d.name,
          ip := u.ip.getD d.ip,
          api_key := (route_filter_updates u).api_key.getD p,
          enabled := u.enabled.getD d.enabled,
          group := u.group.getD d.group,
          description := u.description.getD d.description,
          added_date := u.added_date.getD d.added_date,
          last_seen := u.last_seen.getD d.last_seen,
          monitored_interface := u.monitored_interface.getD d.monitored_interface,
          wan_interface := u.wan_interface.getD d.wan_interface } := by
      rw [dictUpdate, route_filter_updates]
      split <;> rfl
    have hB : save_device (dictUpdate { d with api_key := p } (route_filter_updates u)) =
        { id := u.id.getD d.id,
          name := u.name.getD d.name,
          ip := u.ip.getD d.ip,
          api_key := encrypt_string ((route_filter_updates u).api_key.getD p),
          enabled := u.enabled.getD d.enabled,
          group := u.group.getD d.group,
          description := u.description.getD d.description,
          added_date := u.added_date.getD d.added_date,
          last_seen := u.last_seen.getD d.last_seen,
          monitored_interface := u.monitored_interface.getD d.monitored_interface,
          wan_interface := u.wan_interface.getD d.wan_interface } := by
      rw [hA, save_device, if_pos (show (route_filter_updates u).api_key.getD p ≠ "" from hne)]
    have hupdfst := update_first_head (load_devices pre true) (load_devices post true)
        { d with api_key := p } (route_filter_updates u) d.id
        (fun e he => by
          obtain ⟨x, hx, rfl⟩ := List.mem_map.mp he
          rw [load_device_id]
          exact hpre x hx)
        rfl
    have hload : load_devices (pre ++ d :: post) true =
        load_devices pre true ++ { d with api_key := p } :: load_devices post true := by
      rw [load_devices, List.map_append, List.map_cons, load_device_of_encrypted d p hkey]
      rfl
    rw [routes_update_device, update_device, hload, hupdfst]
    show (some (dictUpdate { d with api_key := p } (route_filter_updates u)),
        (save_devices (load_devices pre true ++
          dictUpdate { d with api_key := p } (route_filter_updates u) ::
            load_devices post true)).2) = _
    rw [save_devices]
    simp only [List.map_append, List.map_cons]
    rw [hB, hA]
  · intro hak
    rcases hak with hnone | hempty
    · rw [route_filter_updates, if_neg (by rw [hnone]; exact fun h => Option.noConfusion h)]
      rw [hnone]
      simp only [Option.getD_none]
      exact hkey.symm
    · rw [route_filter_updates, if_pos hempty]
      show encrypt_string (Option.getD none p) = d.api_key
      simp only [Option.getD_none]
      exact hkey.symm
  · intro k hk hkne
    have hrf : route_filter_updates u = u := by
      rw [route_filter_updates, if_neg fun h => hkne (Option.some_inj.mp ((hk.symm.trans h)))]
    rw [hrf, hk, Option.getD_some]
    exact ⟨rfl, codec_roundtrip k⟩

/-- A stored device with an encrypted key, used by the update-claim
witness. -/
def storedDeviceForUpdate : Device :=
  ⟨"dev1", "fw1", "10.0.0.2", encrypt_string "oldkey", true, "HQ", "", "2024-01-02", none,
   "ethernet1/12", ""⟩

/-- An update supplying a new name and the api key "newkey". -/
def newKeyUpdate : DeviceUpdate := { name := some "renamed", api_key := some "newkey" }

/-- An update supplying an empty api key (treated as no change). -/
def emptyKeyUpdate : DeviceUpdate := { api_key := some "" }

theorem update_device_merge_witness :
    decrypt_string
        (encrypt_string ((route_filter_updates newKeyUpdate).api_key.getD "oldkey")) =
      "newkey" ∧
    encrypt_string ((route_filter_updates emptyKeyUpdate).api_key.getD "oldkey") =
      storedDeviceForUpdate.api_key := by
  have h1 := update_device_merge [] [] storedDeviceForUpdate newKeyUpdate "oldkey"
    (fun e he => absurd he (List.not_mem_nil e)) (by decide) rfl
  have h2 := update_device_merge [] [] storedDeviceForUpdate emptyKeyUpdate "oldkey"
    (fun e he => absurd he (List.not_mem_nil e)) (by decide) rfl
  exact ⟨(h1.2.2 "newkey" rfl (by decide)).2, h2.2.1 (Or.inr rfl)⟩

end PANfm
